import Mathlib

/-!
Verification of the TinyGraph scene/interaction engine (src/sketch.js).

The JavaScript source is shallowly embedded: numbers are modelled as exact
rationals (ℚ), JS object identity of Node instances is modelled by a `ref`
token allocated from a counter, and the mutable globals of the sketch are
gathered into an explicit `AppState` record that every operation threads.
The square root used by the repulsion force is kept abstract (a function
parameter), since no claim depends on its value.
-/

namespace TinyGraph

/-- Maximum camera zoom (source: `const MAX_ZOOM = 5`). -/
def MAX_ZOOM : ℚ := 5

/-- Minimum camera zoom (source: `const MIN_ZOOM = 0.2`, the exact rational 1/5). -/
def MIN_ZOOM : ℚ := 1/5

/-- History capacity (source: `const HISTORY_LIMIT = 50`). -/
def HISTORY_LIMIT : Nat := 50

/-- p5.js `constrain(n, low, high)` = `Math.max(Math.min(n, high), low)`. -/
def constrainQ (n low high : ℚ) : ℚ := max (min n high) low

/-- A live Node object (class `Node` in src/sketch.js). `ref` models JS object
identity (reference equality); it is not a source field. -/
structure Node where
  ref : Nat
  x : ℚ
  y : ℚ
  vx : ℚ
  vy : ℚ
  r : ℚ
  id : Int
  label : String
  tx : ℚ
  ty : ℚ
  speed : ℚ
  friction : ℚ
  labelVisible : Bool
  deriving DecidableEq

/-- The per-node record persisted by `createSnapshot` (fields x, y, id, label,
speed, friction, tx, ty — velocity, radius and label visibility are not saved). -/
structure NodeData where
  x : ℚ
  y : ℚ
  id : Int
  label : String
  speed : ℚ
  friction : ℚ
  tx : ℚ
  ty : ℚ
  deriving DecidableEq

/-- A well-formed history snapshot: nodes by value, edges as id pairs. -/
structure Snapshot where
  nodes : List NodeData
  edges : List (Int × Int)
  deriving DecidableEq

/-- The result of `JSON.parse` on a loaded file, before `restoreFromSnapshot`
reads it: either top-level array field may be missing (`none`), in which case
the JS code throws a TypeError at the corresponding `.map` call. -/
structure RawSnapshot where
  nodes : Option (List NodeData)
  edges : Option (List (Int × Int))
  deriving DecidableEq

/-- The world-space containment rectangle (global `worldBounds`). -/
structure Bounds where
  left : ℚ
  top : ℚ
  right : ℚ
  bottom : ℚ
  deriving DecidableEq

/-- The mutable globals of src/sketch.js that the verified operations touch.
Edges hold node references (`ref` tokens); `nextRef` is the allocator for
fresh object identities. Display-toggle globals that only affect rendering
(and `worldBounds`, recomputed each frame from the viewport) are passed as
parameters to the functions that read them. -/
structure AppState where
  nodes : List Node
  edges : List (Nat × Nat)
  selectedNode : Option Nat
  hoveredNode : Option Nat
  draggedNode : Option Nat
  isConnectingNode : Bool
  isLabelsAlwaysVisible : Bool
  zoom : ℚ
  offsetX : ℚ
  offsetY : ℚ
  canvasX : ℚ
  canvasY : ℚ
  undoStack : List Snapshot
  redoStack : List Snapshot
  toasts : List String
  nextRef : Nat
  deriving DecidableEq

/-- Source `screenToWorld(mx, my)`: `((mx - offsetX) / zoom, (my - offsetY) / zoom)`. -/
def screenToWorld (st : AppState) (mx my : ℚ) : ℚ × ℚ :=
  ((mx - st.offsetX) / st.zoom, (my - st.offsetY) / st.zoom)

/-- The camera's forward mapping, from the render transform in `draw()`
(`translate(offsetX, offsetY); scale(zoom)`): `screen = world * zoom + offset`. -/
def worldToScreen (st : AppState) (wx wy : ℚ) : ℚ × ℚ :=
  (wx * st.zoom + st.offsetX, wy * st.zoom + st.offsetY)

/-- Source `applyZoom(delta, pivotX, pivotY)`: clamp `zoom + delta` into
`[MIN_ZOOM, MAX_ZOOM]`, then re-derive the offset so the world point under the
pivot stays under it. (The slider write-back is UI-only and not modelled.) -/
def applyZoom (st : AppState) (delta pivotX pivotY : ℚ) : AppState :=
  let newZoom := constrainQ (st.zoom + delta) MIN_ZOOM MAX_ZOOM
  let world := screenToWorld st pivotX pivotY
  { st with
    offsetX := pivotX - world.1 * newZoom
    offsetY := pivotY - world.2 * newZoom
    zoom := newZoom }

/-- Constructor `new Node(x, y, id)`: zero velocity, radius 20, label derived
from the id, spring target at the spawn point, default coefficients 0.1 and
0.8, label visibility copied from the global display toggle at creation time.
`ref` is the fresh object identity. -/
def mkNode (labelsVisible : Bool) (ref : Nat) (x y : ℚ) (id : Int) : Node where
  ref := ref
  x := x
  y := y
  vx := 0
  vy := 0
  r := 20
  id := id
  label := "node " ++ toString id
  tx := x
  ty := y
  speed := 1/10
  friction := 4/5
  labelVisible := labelsVisible

/-- The id of the node a stored edge endpoint references. In JS the edge holds
the node object itself; here the ref token is resolved against the node list
(always successful in reachable states; the default 0 is never hit there). -/
def idOfRef (ns : List Node) (ref : Nat) : Int :=
  ((ns.find? (fun n => n.ref == ref)).map Node.id).getD 0

/-- Source `createSnapshot()`: nodes by value (persisted fields only), edges
as endpoint-id pairs. -/
def createSnapshot (st : AppState) : Snapshot where
  nodes := st.nodes.map (fun n =>
    { x := n.x, y := n.y, id := n.id, label := n.label,
      speed := n.speed, friction := n.friction, tx := n.tx, ty := n.ty })
  edges := st.edges.map (fun e => (idOfRef st.nodes e.1, idOfRef st.nodes e.2))

/-- Source `saveState()`: clear the redo stack, push a snapshot onto the undo
stack, evict the oldest entry when the capacity is exceeded. -/
def saveState (st : AppState) : AppState :=
  let pushed := st.undoStack ++ [createSnapshot st]
  { st with
    redoStack := []
    undoStack := if HISTORY_LIMIT < pushed.length then pushed.drop 1 else pushed }

/-- One restored node: `new Node(nData.x, nData.y, nData.id)` followed by
`Object.assign(newNode, nData)`, which overwrites the persisted fields and
leaves velocity, radius and label visibility at constructor values. -/
def nodeFromData (labelsVisible : Bool) (ref : Nat) (nd : NodeData) : Node where
  ref := ref
  x := nd.x
  y := nd.y
  vx := 0
  vy := 0
  r := 20
  id := nd.id
  label := nd.label
  tx := nd.tx
  ty := nd.ty
  speed := nd.speed
  friction := nd.friction
  labelVisible := labelsVisible

/-- Rebuild the node collection from snapshot data, allocating fresh object
identities upward from `base`. -/
def allocNodes (labelsVisible : Bool) (base : Nat) : List NodeData → List Node
  | [] => []
  | nd :: rest => nodeFromData labelsVisible base nd :: allocNodes labelsVisible (base + 1) rest

/-- Resolve one stored edge: find both endpoint nodes by id among the restored
nodes (first match, as `Array.prototype.find`); drop the edge when either is
missing. -/
def resolveEdge (ns : List Node) (e : Int × Int) : Option (Nat × Nat) :=
  match ns.find? (fun n => n.id == e.1), ns.find? (fun n => n.id == e.2) with
  | some a, some b => some (a.ref, b.ref)
  | _, _ => none

/-- Source `restoreFromSnapshot` on a structurally well-formed snapshot (the
only shape reachable from the history stacks): clear transient selection and
connect state, rebuild nodes, resolve edges by id, silently dropping any edge
with an unresolvable endpoint. -/
def restoreSnapshot (snap : Snapshot) (st : AppState) : AppState :=
  let newNodes := allocNodes st.isLabelsAlwaysVisible st.nextRef snap.nodes
  { st with
    selectedNode := none
    draggedNode := none
    hoveredNode := none
    isConnectingNode := false
    nodes := newNodes
    edges := snap.edges.filterMap (resolveEdge newNodes)
    nextRef := st.nextRef + snap.nodes.length }

/-- Source `restoreFromSnapshot` on an arbitrary parsed document. The JS
function mutates the globals in sequence and throws a TypeError at
`snapshot.nodes.map` or `snapshot.edges.map` when the field is missing;
`Except.error` carries the state as mutated up to the throw point. -/
def restoreRaw (raw : RawSnapshot) (st : AppState) : Except AppState AppState :=
  let st1 := { st with
    selectedNode := none
    draggedNode := none
    hoveredNode := none
    isConnectingNode := false }
  match raw.nodes with
  | none => .error st1
  | some nds =>
    let newNodes := allocNodes st.isLabelsAlwaysVisible st.nextRef nds
    let st2 := { st1 with nodes := newNodes, nextRef := st.nextRef + nds.length }
    match raw.edges with
    | none => .error st2
    | some es => .ok { st2 with edges := es.filterMap (resolveEdge newNodes) }

/-- Source `home()`: reset the camera to zoom 1 and origin offset. -/
def home (st : AppState) : AppState :=
  { st with zoom := 1, offsetX := 0, offsetY := 0 }

/-- Source `handleFileLoad(file)`. `fileOk` is the MIME check on the loaded
file; `parsed` is the outcome of `JSON.parse(file.data)` (`none` models a
parse exception). On success the camera is reset and history reinitialised
with the loaded state as sole entry; exceptions thrown partway through
`restoreFromSnapshot` are caught by the same handler, which then only adds the
error toast on top of whatever partial mutation had already happened. -/
def handleFileLoad (fileOk : Bool) (parsed : Option RawSnapshot) (st : AppState) : AppState :=
  if fileOk = false then
    { st with toasts := st.toasts ++ ["Error: Please select a valid .json file."] }
  else
    match parsed with
    | none => { st with toasts := st.toasts ++ ["Error: Could not parse the JSON file."] }
    | some raw =>
      match restoreRaw raw st with
      | .error stPartial =>
        { stPartial with toasts := stPartial.toasts ++ ["Error: Could not parse the JSON file."] }
      | .ok stLoaded =>
        let stHome := home stLoaded
        { stHome with
          undoStack := [createSnapshot stHome]
          redoStack := []
          toasts := stHome.toasts ++ ["Graph loaded successfully!"] }

/-- Source `undo()`: refuse with a toast when only the sentinel remains;
otherwise move the current snapshot to the redo stack and restore the new top
of the undo stack. Stacks grow at the end of the list (JS push/pop). The
function is total: the refused branch touches nothing but the toast list, so
undo can never throw. -/
def undo (st : AppState) : AppState :=
  if st.undoStack.length ≤ 1 then
    { st with toasts := st.toasts ++ ["Nothing to undo."] }
  else
    match st.undoStack.getLast?, st.undoStack.dropLast.getLast? with
    | some currentState, some prevState =>
      restoreSnapshot prevState
        { st with
          undoStack := st.undoStack.dropLast
          redoStack := st.redoStack ++ [currentState] }
    | _, _ => st

/-- The duplicate test of `attemptConnection`: an edge between `s` and `t`
already exists in either orientation. -/
def hasPair (s t : Nat) (E : List (Nat × Nat)) : Bool :=
  E.any (fun e => (e.1 == s && e.2 == t) || (e.1 == t && e.2 == s))

/-- Source `attemptConnection(targetNode)`: guard against a missing selection,
a missing target and self-connection (all three leave the state untouched);
otherwise deduplicate in both orientations, appending the edge, recording
history and toasting on a new pair; in both post-guard branches exit connect
mode and clear the selection. -/
def attemptConnection (target : Option Nat) (st : AppState) : AppState :=
  match st.selectedNode, target with
  | some s, some t =>
    if s = t then st
    else
      let st1 :=
        if hasPair s t st.edges then
          { st with toasts := st.toasts ++ ["These nodes are already connected."] }
        else
          let stPushed := saveState { st with edges := st.edges ++ [(s, t)] }
          { stPushed with toasts := stPushed.toasts ++
              ["Connected " ++ toString (idOfRef st.nodes s) ++ " -> " ++
                toString (idOfRef st.nodes t)] }
      { st1 with isConnectingNode := false, selectedNode := none }
  | _, _ => st

/-- The edges component of `attemptConnection` as a pure function of the
selection, the target and the edge list (lines 494-503 of the source
restricted to the `edges` global; history and toasts do not touch `edges`). -/
def connectE (sel target : Option Nat) (E : List (Nat × Nat)) : List (Nat × Nat) :=
  match sel, target with
  | some s, some t =>
    if s = t then E
    else if hasPair s t E then E
    else E ++ [(s, t)]
  | _, _ => E

/-- Apply a sequence of connect calls, each given as (selection, target). -/
def connectSeq (calls : List (Option Nat × Option Nat)) (E : List (Nat × Nat)) :
    List (Nat × Nat) :=
  calls.foldl (fun acc c => connectE c.1 c.2 acc) E

/-- Two edges join the same unordered pair of endpoints. -/
def samePair (e f : Nat × Nat) : Prop :=
  (e.1 = f.1 ∧ e.2 = f.2) ∨ (e.1 = f.2 ∧ e.2 = f.1)

instance (e f : Nat × Nat) : Decidable (samePair e f) := by
  unfold samePair
  infer_instance

/-- An edge list is well-formed when it contains no self-loop and no two edges
between the same unordered pair. -/
def goodEdges (E : List (Nat × Nat)) : Prop :=
  (∀ e ∈ E, e.1 ≠ e.2) ∧ E.Pairwise (fun e f => ¬ samePair e f)

instance (E : List (Nat × Nat)) : Decidable (goodEdges E) := by
  unfold goodEdges
  infer_instance

/-- Renumber ids densely starting from position `i` (the loop body of
`updateNodesID`). -/
def renumberFrom (i : Nat) : List Node → List Node
  | [] => []
  | n :: rest => { n with id := (i : Int) + 1 } :: renumberFrom (i + 1) rest

/-- Source `updateNodesID()`: assign `nodes[i].id = i + 1` at every position. -/
def updateNodesID (ns : List Node) : List Node := renumberFrom 0 ns

/-- JS `nodes.indexOf(node)`: first position holding the reference, else -1. -/
def jsIndexOf (ref : Nat) (ns : List Node) : Int :=
  match ns.findIdx? (fun n => n.ref == ref) with
  | some i => (i : Int)
  | none => -1

/-- JS `arr.splice(i, 1)`: a negative start counts from the end (clamped at
0); a start in range removes one element, a start past the end removes none. -/
def spliceOne (ns : List Node) (i : Int) : List Node :=
  let start : Int := if i < 0 then max ((ns.length : Int) + i) 0 else i
  ns.eraseIdx start.toNat

/-- The index JS computes for the current selection
(`nodes.indexOf(selectedNode)`, where `indexOf(null)` is -1). -/
def selIndex (st : AppState) : Int :=
  match st.selectedNode with
  | none => -1
  | some s => jsIndexOf s st.nodes

/-- Mouse buttons distinguished by `mousePressed` (`mouseButton === RIGHT`). -/
inductive MouseButton where
  | left
  | right
  | center
  deriving DecidableEq

/-- The delete branch of `mousePressed` (secondary click): when a node is
hovered, splice it out, drop the edges referencing it, clear the selection if
it indexed the same position, renumber ids densely, record history. -/
def deleteHovered (st : AppState) : AppState :=
  match st.hoveredNode with
  | none => st
  | some r =>
    let indexH := jsIndexOf r st.nodes
    let indexS := selIndex st
    saveState { st with
      nodes := updateNodesID (spliceOne st.nodes indexH)
      edges := st.edges.filter (fun e => !(e.1 == r) && !(e.2 == r))
      selectedNode := if indexS = indexH then none else st.selectedNode }

/-- The trailing drag-start check of `mousePressed`: begin dragging when the
selected node is the hovered node, a node is hovered, and connect mode is
off. -/
def dragCheck (st : AppState) : AppState :=
  if st.selectedNode = st.hoveredNode ∧ st.hoveredNode ≠ none ∧ st.isConnectingNode = false then
    { st with draggedNode := st.selectedNode }
  else st

/-- Source `mousePressed()`. `spaceDown` models `keyIsDown` on the space key,
`inCanvas` the bounds check on the raw mouse position; the world mouse
position is the state's `canvasX`/`canvasY`. The secondary-button branch
returns before the drag-start check. -/
def mousePressed (button : MouseButton) (spaceDown inCanvas : Bool) (st : AppState) : AppState :=
  if inCanvas = false then st
  else if button = .right then deleteHovered st
  else
    let st1 :=
      if st.hoveredNode = none ∧ spaceDown = false then
        let newNode := mkNode st.isLabelsAlwaysVisible st.nextRef st.canvasX st.canvasY
          ((st.nodes.length : Int) + 1)
        saveState { st with
          nodes := st.nodes ++ [newNode]
          nextRef := st.nextRef + 1
          selectedNode := none
          isConnectingNode := false }
      else if st.isConnectingNode = false then
        { st with selectedNode := st.hoveredNode }
      else
        attemptConnection st.hoveredNode st
    dragCheck st1

/-- The accumulated repulsion force on `n` from `others` (the loop inside
`applyRepulsion`), with the square root kept abstract as `sq`. Neighbours
within twice the radius and beyond the minimum separation 0.1 contribute half
their overlap along the unit vector between centres. -/
def repulsionForce (sq : ℚ → ℚ) (others : List Node) (n : Node) : ℚ × ℚ :=
  others.foldl
    (fun acc other =>
      if other.ref == n.ref then acc
      else
        let dx := n.x - other.x
        let dy := n.y - other.y
        let d := sq (dx * dx + dy * dy)
        if d < n.r * 2 ∧ 1/10 < d then
          let overlap := n.r * 2 - d
          let force := overlap * (1/2)
          (acc.1 + dx / d * force, acc.2 + dy / d * force)
        else acc)
    (0, 0)

/-- Source `Node.applyRepulsion(others)`: add the accumulated force to the
velocity, then clamp both axes to [-5, 5]. Note the clamp lives here, not in
the integration step. -/
def applyRepulsion (sq : ℚ → ℚ) (others : List Node) (n : Node) : Node :=
  let f := repulsionForce sq others n
  { n with
    vx := constrainQ (n.vx + f.1) (-5) 5
    vy := constrainQ (n.vy + f.2) (-5) 5 }

/-- Source `Node.applyBoundary()`: for each side crossed by the radius-inflated
extent, add a restoring force of 0.1 times the overshoot, pushing inward. -/
def applyBoundary (b : Bounds) (n : Node) : Node :=
  let pushStrength : ℚ := 1/10
  let vx1 := if n.x - n.r < b.left then n.vx + (b.left - n.x + n.r) * pushStrength else n.vx
  let vy1 := if n.y - n.r < b.top then n.vy + (b.top - n.y + n.r) * pushStrength else n.vy
  let vx2 := if b.right < n.x + n.r then vx1 - (n.x + n.r - b.right) * pushStrength else vx1
  let vy2 := if b.bottom < n.y + n.r then vy1 - (n.y + n.r - b.bottom) * pushStrength else vy1
  { n with vx := vx2, vy := vy2 }

/-- Source `Node.update()`: add the spring contribution, apply friction once,
then move. There is no velocity clamp here. -/
def Node.update (n : Node) : Node :=
  let vx2 := (n.vx + (n.tx - n.x) * n.speed) * n.friction
  let vy2 := (n.vy + (n.ty - n.y) * n.speed) * n.friction
  { n with vx := vx2, vy := vy2, x := n.x + vx2, y := n.y + vy2 }

/-- The physics part of `drawNodes()`: a first pass applies repulsion (unless
overlap is allowed) and then boundary containment to every node — the first
pass mutates only velocities while repulsion reads only the others' positions,
so it is a pointwise map over the pre-frame list — and a second pass runs the
integrator on each node independently. `allowOverlap` is the global
`isAllowOverlap` and `b` the global `worldBounds`. -/
def stepFrame (sq : ℚ → ℚ) (allowOverlap : Bool) (b : Bounds) (ns : List Node) : List Node :=
  let phase1 := ns.map (fun n =>
    applyBoundary b (if allowOverlap = false then applyRepulsion sq ns n else n))
  phase1.map Node.update

/-- The net boundary force by itself, side conditions as in `applyBoundary`. -/
def boundaryForce (b : Bounds) (n : Node) : ℚ × ℚ :=
  let pushStrength : ℚ := 1/10
  let fx := (if n.x - n.r < b.left then (b.left - n.x + n.r) * pushStrength else 0) -
    (if b.right < n.x + n.r then (n.x + n.r - b.right) * pushStrength else 0)
  let fy := (if n.y - n.r < b.top then (b.top - n.y + n.r) * pushStrength else 0) -
    (if b.bottom < n.y + n.r then (n.y + n.r - b.bottom) * pushStrength else 0)
  (fx, fy)

/-- Integration model written from claim C1's words: sum the three force
contributions into velocity first, then apply friction once, then clamp the
velocity to [-5, 5] on both axes, then move. -/
def nodeStepClaimed (sq : ℚ → ℚ) (allowOverlap : Bool) (b : Bounds) (ns : List Node)
    (n : Node) : Node :=
  let rep := if allowOverlap = false then repulsionForce sq ns n else (0, 0)
  let bnd := boundaryForce b n
  let spr := ((n.tx - n.x) * n.speed, (n.ty - n.y) * n.speed)
  let vx2 := constrainQ ((n.vx + rep.1 + bnd.1 + spr.1) * n.friction) (-5) 5
  let vy2 := constrainQ ((n.vy + rep.2 + bnd.2 + spr.2) * n.friction) (-5) 5
  { n with vx := vx2, vy := vy2, x := n.x + vx2, y := n.y + vy2 }

/-- The per-frame physics step as claim C1 describes it. -/
def stepFrameClaimed (sq : ℚ → ℚ) (allowOverlap : Bool) (b : Bounds) (ns : List Node) :
    List Node :=
  ns.map (nodeStepClaimed sq allowOverlap b ns)

/-- Integration model written from the amended claim: per node, when overlap
is disallowed the repulsion contribution is added and the velocity is
immediately clamped to [-5, 5]; the boundary contribution is then added
unclamped; then the spring contribution is added, friction is applied exactly
once, and the node moves by the resulting velocity with no further clamp. -/
def nodeStepAmended (sq : ℚ → ℚ) (allowOverlap : Bool) (b : Bounds) (ns : List Node)
    (n : Node) : Node :=
  let n1 :=
    if allowOverlap = false then
      { n with
        vx := constrainQ (n.vx + (repulsionForce sq ns n).1) (-5) 5
        vy := constrainQ (n.vy + (repulsionForce sq ns n).2) (-5) 5 }
    else n
  let bf := boundaryForce b n1
  let n2 := { n1 with vx := n1.vx + bf.1, vy := n1.vy + bf.2 }
  let vx := (n2.vx + (n2.tx - n2.x) * n2.speed) * n2.friction
  let vy := (n2.vy + (n2.ty - n2.y) * n2.speed) * n2.friction
  { n2 with vx := vx, vy := vy, x := n2.x + vx, y := n2.y + vy }

/-- The per-frame physics step as the amended claim describes it. -/
def stepFrameAmended (sq : ℚ → ℚ) (allowOverlap : Bool) (b : Bounds) (ns : List Node) :
    List Node :=
  ns.map (nodeStepAmended sq allowOverlap b ns)

/-- A concrete camera state with an empty scene, used to instantiate
hypothesis-bearing theorems. -/
def camState : AppState where
  nodes := []
  edges := []
  selectedNode := none
  hoveredNode := none
  draggedNode := none
  isConnectingNode := false
  isLabelsAlwaysVisible := false
  zoom := 2
  offsetX := 30
  offsetY := -7
  canvasX := 0
  canvasY := 0
  undoStack := [⟨[], []⟩]
  redoStack := []
  toasts := []
  nextRef := 0

/-- A concrete scene with two nodes, one edge, the first node hovered and
selected. -/
def sceneTwoNodes : AppState where
  nodes := [mkNode false 0 100 100 1, mkNode false 1 300 100 2]
  edges := [(0, 1)]
  selectedNode := some 0
  hoveredNode := some 0
  draggedNode := none
  isConnectingNode := false
  isLabelsAlwaysVisible := false
  zoom := 1
  offsetX := 0
  offsetY := 0
  canvasX := 100
  canvasY := 100
  undoStack := [⟨[], []⟩]
  redoStack := []
  toasts := []
  nextRef := 2

/-- A concrete scene with one node, selected, used for the import claims. -/
def sceneOneNode : AppState where
  nodes := [mkNode false 0 50 60 1]
  edges := []
  selectedNode := some 0
  hoveredNode := none
  draggedNode := none
  isConnectingNode := true
  isLabelsAlwaysVisible := false
  zoom := 1
  offsetX := 0
  offsetY := 0
  canvasX := 0
  canvasY := 0
  undoStack := [⟨[], []⟩]
  redoStack := []
  toasts := []
  nextRef := 1

/-- A parseable document whose `nodes` field is an array but whose `edges`
field is missing: structurally invalid for `restoreFromSnapshot`. -/
def rawNoEdges : RawSnapshot where
  nodes := some []
  edges := none

/-- A parseable document with neither top-level array field. -/
def rawNoNodes : RawSnapshot where
  nodes := none
  edges := none

/-- A node whose spring target differs from its position (as when dragged):
position (100, 100), target (200, 100). -/
def draggedDemo : Node := { mkNode false 0 100 100 1 with tx := 200 }

/-- World bounds of a static 800 × 600 viewport. -/
def boundsDemo : Bounds where
  left := 0
  top := 0
  right := 800
  bottom := 600

/-- A stand-in for the square root; it is never consulted on the single-node
inputs it is used with. -/
def sqZero : ℚ → ℚ := fun _ => 0

end TinyGraph

namespace TinyGraph

/-- Claim C5: applyZoom keeps zoom inside `[MIN_ZOOM, MAX_ZOOM]`, and the world
point that was under the pivot screen coordinate before the call is still under
that same screen coordinate after it (exactly, hence within any tolerance). -/
theorem applyZoom_clamped_and_pivot_invariant (st : AppState) (delta pivotX pivotY : ℚ) :
    MIN_ZOOM ≤ (applyZoom st delta pivotX pivotY).zoom ∧
    (applyZoom st delta pivotX pivotY).zoom ≤ MAX_ZOOM ∧
    screenToWorld (applyZoom st delta pivotX pivotY) pivotX pivotY =
      screenToWorld st pivotX pivotY := by
  have hmin : MIN_ZOOM ≤ constrainQ (st.zoom + delta) MIN_ZOOM MAX_ZOOM :=
    le_max_right _ _
  have hmax : constrainQ (st.zoom + delta) MIN_ZOOM MAX_ZOOM ≤ MAX_ZOOM := by
    apply max_le
    · exact min_le_right _ _
    · norm_num [MIN_ZOOM, MAX_ZOOM]
  have hpos : (0 : ℚ) < constrainQ (st.zoom + delta) MIN_ZOOM MAX_ZOOM := by
    have : (0 : ℚ) < MIN_ZOOM := by norm_num [MIN_ZOOM]
    exact lt_of_lt_of_le this hmin
  have hne : constrainQ (st.zoom + delta) MIN_ZOOM MAX_ZOOM ≠ 0 := ne_of_gt hpos
  refine ⟨hmin, hmax, ?_⟩
  simp only [applyZoom, screenToWorld]
  rw [Prod.mk.injEq]
  refine ⟨?_, ?_⟩ <;> field_simp <;>
    rw [mul_div_mul_right _ _ hne]

/-- Claim C8: for every world point and camera with zoom in range, the forward
mapping `screen = world * zoom + offset` followed by `screenToWorld` returns
the original world point exactly (hence within any floating tolerance). -/
theorem screenToWorld_inverts_forward (st : AppState) (wx wy : ℚ)
    (h1 : MIN_ZOOM ≤ st.zoom) (h2 : st.zoom ≤ MAX_ZOOM) :
    screenToWorld st (worldToScreen st wx wy).1 (worldToScreen st wx wy).2 = (wx, wy) := by
  have hpos : (0 : ℚ) < st.zoom := by
    have : (0 : ℚ) < MIN_ZOOM := by norm_num [MIN_ZOOM]
    exact lt_of_lt_of_le this h1
  have hne : st.zoom ≠ 0 := ne_of_gt hpos
  simp only [screenToWorld, worldToScreen]
  rw [Prod.mk.injEq]
  refine ⟨?_, ?_⟩ <;> field_simp

/-- Witness for C8 at a concrete camera and world point. -/
theorem screenToWorld_inverts_forward_witness :
    screenToWorld camState (worldToScreen camState 11 13).1 (worldToScreen camState 11 13).2
      = (11, 13) :=
  screenToWorld_inverts_forward camState 11 13 (by norm_num [camState, MIN_ZOOM])
    (by norm_num [camState, MAX_ZOOM])

/-- Helper: applyBoundary adds the net boundary force to the velocity. -/
lemma applyBoundary_eq_force (b : Bounds) (n : Node) :
    applyBoundary b n =
      { n with vx := n.vx + (boundaryForce b n).1, vy := n.vy + (boundaryForce b n).2 } := by
  cases n
  simp only [applyBoundary, boundaryForce, Node.mk.injEq]
  split_ifs <;> simp <;> (try constructor) <;> ring

/-- Helper: one node of the code's per-frame physics pass equals the amended
integration model. -/
lemma nodeStep_decomposition (sq : ℚ → ℚ) (allowOverlap : Bool) (b : Bounds) (ns : List Node)
    (n : Node) :
    Node.update (applyBoundary b (if allowOverlap = false then applyRepulsion sq ns n else n)) =
      nodeStepAmended sq allowOverlap b ns n := by
  cases allowOverlap <;>
    simp [Node.update, nodeStepAmended, applyRepulsion, applyBoundary_eq_force]

/-- Claim C1 (amended): per physics frame and per node, when overlap is
disallowed the repulsion contribution is summed into velocity and the velocity
is immediately clamped to [-5, 5] inside the repulsion step (so clamping is
per-contribution, and absent entirely when overlap is allowed); the boundary
contribution is then added unclamped; finally the integrator adds the spring
contribution, applies friction damping exactly once per frame, and performs
`position += velocity` with no clamp after friction. -/
theorem stepFrame_integration_order (sq : ℚ → ℚ) (allowOverlap : Bool) (b : Bounds)
    (ns : List Node) :
    stepFrame sq allowOverlap b ns = stepFrameAmended sq allowOverlap b ns := by
  simp only [stepFrame, stepFrameAmended, List.map_map]
  congr 1
  funext n
  exact nodeStep_decomposition sq allowOverlap b ns n

/-- Counterexample to claim C1 as stated: for a single in-bounds node whose
spring target is 100 to its right, the code moves it by 8 (friction only, no
clamp: velocity (100 * 0.1) * 0.8 = 8), while the claimed
sum-friction-clamp-move order would clamp the velocity to 5. -/
theorem stepFrame_not_claimed_integration :
    stepFrame sqZero false boundsDemo [draggedDemo] ≠
      stepFrameClaimed sqZero false boundsDemo [draggedDemo] := by
  have h1 : (stepFrame sqZero false boundsDemo [draggedDemo]).map Node.x = [108] := by
    norm_num [stepFrame, applyRepulsion, repulsionForce, applyBoundary,
      Node.update, sqZero, boundsDemo, draggedDemo, mkNode, constrainQ, min_def, max_def]
  have h2 : (stepFrameClaimed sqZero false boundsDemo [draggedDemo]).map Node.x = [105] := by
    norm_num [stepFrameClaimed, nodeStepClaimed, repulsionForce, boundaryForce, sqZero,
      boundsDemo, draggedDemo, mkNode, constrainQ, min_def, max_def]
  intro h
  rw [h, h2] at h1
  exact absurd h1 (by norm_num)

/-- Claim C2 (amended), the behaviour of import on erroring documents: a file
failing the MIME check or JSON parsing leaves every scene field untouched and
only adds an error toast; a parseable document missing its `nodes` array
reports the error but has already cleared selection/hover/drag and connect
mode; a parseable document whose `nodes` is an array but whose `edges` is
missing additionally replaces the node collection (keeping the old edges)
before the error is reported. -/
theorem handleFileLoad_error_paths (st : AppState) :
    (∀ parsed, handleFileLoad false parsed st =
      { st with toasts := st.toasts ++ ["Error: Please select a valid .json file."] }) ∧
    (handleFileLoad true none st =
      { st with toasts := st.toasts ++ ["Error: Could not parse the JSON file."] }) ∧
    (∀ raw : RawSnapshot, raw.nodes = none →
      handleFileLoad true (some raw) st =
        { st with
          selectedNode := none
          draggedNode := none
          hoveredNode := none
          isConnectingNode := false
          toasts := st.toasts ++ ["Error: Could not parse the JSON file."] }) ∧
    (∀ raw : RawSnapshot, ∀ nds, raw.nodes = some nds → raw.edges = none →
      handleFileLoad true (some raw) st =
        { st with
          selectedNode := none
          draggedNode := none
          hoveredNode := none
          isConnectingNode := false
          nodes := allocNodes st.isLabelsAlwaysVisible st.nextRef nds
          nextRef := st.nextRef + nds.length
          toasts := st.toasts ++ ["Error: Could not parse the JSON file."] }) := by
  refine ⟨fun parsed => ?_, ?_, fun raw h => ?_, fun raw nds h1 h2 => ?_⟩
  · simp [handleFileLoad]
  · simp [handleFileLoad]
  · simp [handleFileLoad, restoreRaw, h]
  · simp [handleFileLoad, restoreRaw, h1, h2]

/-- Witness for the amended C2 at a concrete scene and document. -/
theorem handleFileLoad_error_paths_witness :
    handleFileLoad true (some rawNoNodes) sceneOneNode =
      { sceneOneNode with
        selectedNode := none
        draggedNode := none
        hoveredNode := none
        isConnectingNode := false
        toasts := sceneOneNode.toasts ++ ["Error: Could not parse the JSON file."] } :=
  (handleFileLoad_error_paths sceneOneNode).2.2.1 rawNoNodes rfl

/-- Counterexample to claim C2 as stated: loading the parseable but
structurally invalid document with `nodes` present and `edges` missing reports
a parse error, yet the in-memory scene is partially mutated — the node
collection is replaced (here emptied) rather than preserved. -/
theorem handleFileLoad_partial_mutation :
    (handleFileLoad true (some rawNoEdges) sceneOneNode).toasts =
      sceneOneNode.toasts ++ ["Error: Could not parse the JSON file."] ∧
    (handleFileLoad true (some rawNoEdges) sceneOneNode).nodes ≠ sceneOneNode.nodes := by
  decide

/-- Helper: renumbering preserves the length of the node list. -/
lemma renumberFrom_length (i : Nat) (ns : List Node) :
    (renumberFrom i ns).length = ns.length := by
  induction ns generalizing i with
  | nil => rfl
  | cons n rest ih => simp [renumberFrom, ih]

/-- Helper: the ids after renumbering from position `i` are `i+1, i+2, ...`. -/
lemma renumberFrom_map_id (i : Nat) (ns : List Node) :
    (renumberFrom i ns).map Node.id =
      (List.range ns.length).map (fun j => ((i + j : Nat) : Int) + 1) := by
  induction ns generalizing i with
  | nil => rfl
  | cons n rest ih =>
    simp only [renumberFrom, List.map_cons, List.length_cons, List.range_succ_eq_map,
      List.map_map]
    refine List.cons_eq_cons.mpr ⟨by simp, ?_⟩
    rw [ih (i + 1)]
    apply List.map_congr_left
    intro j hj
    simp only [Function.comp_apply]
    push_cast
    ring

/-- Helper: a secondary click inside the canvas runs exactly the delete branch. -/
lemma mousePressed_right (st : AppState) (sp : Bool) :
    mousePressed .right sp true st = deleteHovered st := by
  simp [mousePressed]

/-- Claim C3: after any node deletion (secondary click on a hovered node), the
ids of the remaining live nodes are exactly the dense sequence 1..N in
collection order. -/
theorem delete_renumbers_ids_densely (st : AppState) (sp : Bool) (r : Nat)
    (h : st.hoveredNode = some r) :
    (mousePressed .right sp true st).nodes.map Node.id =
      (List.range (mousePressed .right sp true st).nodes.length).map
        (fun i => ((i : Nat) : Int) + 1) := by
  rw [mousePressed_right]
  have hnodes : (deleteHovered st).nodes =
      updateNodesID (spliceOne st.nodes (jsIndexOf r st.nodes)) := by
    simp [deleteHovered, h, saveState]
  rw [hnodes, updateNodesID, renumberFrom_length, renumberFrom_map_id]
  simp

/-- Witness for C3 at a concrete two-node scene with the first node hovered. -/
theorem delete_renumbers_ids_densely_witness :
    (mousePressed .right false true sceneTwoNodes).nodes.map Node.id =
      (List.range (mousePressed .right false true sceneTwoNodes).nodes.length).map
        (fun i => ((i : Nat) : Int) + 1) :=
  delete_renumbers_ids_densely sceneTwoNodes false 0 rfl

/-- Claim C7: deleting a node removes exactly the edges incident to it — the
surviving edge list is the filter of the old one, and an edge survives iff
neither endpoint is the deleted (hovered) node. -/
theorem delete_cascades_incident_edges (st : AppState) (sp : Bool) (r : Nat)
    (h : st.hoveredNode = some r) :
    (mousePressed .right sp true st).edges =
      st.edges.filter (fun e => !(e.1 == r) && !(e.2 == r)) ∧
    ∀ e ∈ st.edges,
      (e ∈ (mousePressed .right sp true st).edges ↔ (e.1 ≠ r ∧ e.2 ≠ r)) := by
  rw [mousePressed_right]
  have hedges : (deleteHovered st).edges =
      st.edges.filter (fun e => !(e.1 == r) && !(e.2 == r)) := by
    simp [deleteHovered, h, saveState]
  refine ⟨hedges, fun e he => ?_⟩
  rw [hedges, List.mem_filter]
  simp [he]

/-- Witness for C7 at a concrete two-node scene whose single edge touches the
deleted node. -/
theorem delete_cascades_incident_edges_witness :
    (mousePressed .right false true sceneTwoNodes).edges =
      sceneTwoNodes.edges.filter (fun e => !(e.1 == 0) && !(e.2 == 0)) :=
  (delete_cascades_incident_edges sceneTwoNodes false 0 rfl).1

/-- Claim C6: when only the sentinel snapshot remains (undo stack depth ≤ 1),
`undo` leaves the undo stack, the redo stack and the live entity model (nodes,
edges, selection, connect mode, camera) exactly as they were, and reports the
failure by appending the NothingToUndo toast; being a total function, it never
throws. -/
theorem undo_at_sentinel_is_noop (st : AppState) (h : st.undoStack.length ≤ 1) :
    (undo st).undoStack = st.undoStack ∧
    (undo st).redoStack = st.redoStack ∧
    (undo st).nodes = st.nodes ∧
    (undo st).edges = st.edges ∧
    (undo st).selectedNode = st.selectedNode ∧
    (undo st).hoveredNode = st.hoveredNode ∧
    (undo st).draggedNode = st.draggedNode ∧
    (undo st).isConnectingNode = st.isConnectingNode ∧
    (undo st).zoom = st.zoom ∧
    (undo st).offsetX = st.offsetX ∧
    (undo st).offsetY = st.offsetY ∧
    (undo st).toasts = st.toasts ++ ["Nothing to undo."] := by
  simp [undo, h]

/-- Witness for C6 at a concrete state holding only the sentinel snapshot. -/
theorem undo_at_sentinel_is_noop_witness :
    (undo sceneOneNode).undoStack = sceneOneNode.undoStack ∧
    (undo sceneOneNode).redoStack = sceneOneNode.redoStack ∧
    (undo sceneOneNode).nodes = sceneOneNode.nodes ∧
    (undo sceneOneNode).edges = sceneOneNode.edges ∧
    (undo sceneOneNode).selectedNode = sceneOneNode.selectedNode ∧
    (undo sceneOneNode).hoveredNode = sceneOneNode.hoveredNode ∧
    (undo sceneOneNode).draggedNode = sceneOneNode.draggedNode ∧
    (undo sceneOneNode).isConnectingNode = sceneOneNode.isConnectingNode ∧
    (undo sceneOneNode).zoom = sceneOneNode.zoom ∧
    (undo sceneOneNode).offsetX = sceneOneNode.offsetX ∧
    (undo sceneOneNode).offsetY = sceneOneNode.offsetY ∧
    (undo sceneOneNode).toasts = sceneOneNode.toasts ++ ["Nothing to undo."] :=
  undo_at_sentinel_is_noop sceneOneNode (by decide)

/-- Helper: the duplicate test is symmetric in the two endpoints. -/
lemma hasPair_comm (a b : Nat) (E : List (Nat × Nat)) : hasPair a b E = hasPair b a E := by
  unfold hasPair
  congr 1
  funext e
  exact Bool.or_comm _ _

/-- Helper: the duplicate test after appending one edge. -/
lemma hasPair_append (a b : Nat) (E : List (Nat × Nat)) (e : Nat × Nat) :
    hasPair a b (E ++ [e]) =
      (hasPair a b E || ((e.1 == a && e.2 == b) || (e.1 == b && e.2 == a))) := by
  simp [hasPair]

/-- Helper: a connect call on a pair already present (in either orientation)
leaves the edge list unchanged. -/
lemma connectE_pair_noop (a b : Nat) (E : List (Nat × Nat)) (hp : hasPair a b E = true) :
    connectE (some a) (some b) E = E ∧ connectE (some b) (some a) E = E := by
  have hp2 : hasPair b a E = true := by rw [← hasPair_comm]; exact hp
  constructor
  · by_cases hab : a = b <;> simp [connectE, hab, hp]
  · by_cases hab : b = a <;> simp [connectE, hab, hp2]

/-- Helper: once the pair is present, any sequence of connect calls on that
pair is a no-op. -/
lemma connectSeq_pair_noop (a b : Nat) (calls : List (Option Nat × Option Nat)) :
    ∀ E, hasPair a b E = true →
      (∀ c ∈ calls, c = (some a, some b) ∨ c = (some b, some a)) →
      connectSeq calls E = E := by
  induction calls with
  | nil => intro E _ _; rfl
  | cons c cs ih =>
    intro E hp hc
    have hcE : connectE c.1 c.2 E = E := by
      rcases hc c (by simp) with h | h <;> subst h
      · exact (connectE_pair_noop a b E hp).1
      · exact (connectE_pair_noop a b E hp).2
    have hstep : connectSeq (c :: cs) E = connectSeq cs (connectE c.1 c.2 E) := rfl
    rw [hstep, hcE]
    exact ih E hp (fun d hd => hc d (List.mem_cons_of_mem _ hd))

/-- Helper: across any sequence of connect calls on one unordered pair the
edge list grows by at most one. -/
lemma connectSeq_pair_growth (a b : Nat) (calls : List (Option Nat × Option Nat)) :
    ∀ E, (∀ c ∈ calls, c = (some a, some b) ∨ c = (some b, some a)) →
      (connectSeq calls E).length ≤ E.length + 1 := by
  induction calls with
  | nil => intro E _; simp [connectSeq]
  | cons c cs ih =>
    intro E hc
    have hcs : ∀ d ∈ cs, d = (some a, some b) ∨ d = (some b, some a) :=
      fun d hd => hc d (List.mem_cons_of_mem _ hd)
    have hstep : connectSeq (c :: cs) E = connectSeq cs (connectE c.1 c.2 E) := rfl
    by_cases hp : hasPair a b E = true
    · have hcE : connectE c.1 c.2 E = E := by
        rcases hc c (by simp) with h | h <;> subst h
        · exact (connectE_pair_noop a b E hp).1
        · exact (connectE_pair_noop a b E hp).2
      rw [hstep, hcE, connectSeq_pair_noop a b cs E hp hcs]
      omega
    · have hpf : hasPair a b E = false := Bool.eq_false_iff.mpr hp
      have hpf2 : hasPair b a E = false := by rw [← hasPair_comm]; exact hpf
      rcases hc c (by simp) with h | h <;> subst h
      · by_cases hab : a = b
        · have hcE : connectE (some a) (some b) E = E := by simp [connectE, hab]
          rw [hstep, hcE]
          exact le_trans (ih E hcs) (by omega)
        · have hcE : connectE (some a) (some b) E = E ++ [(a, b)] := by
            simp [connectE, hab, hpf]
          have hp2 : hasPair a b (E ++ [(a, b)]) = true := by
            simp [hasPair_append]
          rw [hstep, hcE, connectSeq_pair_noop a b cs (E ++ [(a, b)]) hp2 hcs]
          simp
      · by_cases hab : b = a
        · have hcE : connectE (some b) (some a) E = E := by simp [connectE, hab]
          rw [hstep, hcE]
          exact le_trans (ih E hcs) (by omega)
        · have hcE : connectE (some b) (some a) E = E ++ [(b, a)] := by
            simp [connectE, hab, hpf2]
          have hp2 : hasPair a b (E ++ [(b, a)]) = true := by
            simp [hasPair_append]
          rw [hstep, hcE, connectSeq_pair_noop a b cs (E ++ [(b, a)]) hp2 hcs]
          simp

/-- Helper: a single connect call preserves well-formedness of the edge
list (no self-loop, no duplicate unordered pair). -/
lemma connectE_preserves_good (sel tgt : Option Nat) (E : List (Nat × Nat))
    (hg : goodEdges E) : goodEdges (connectE sel tgt E) := by
  cases sel with
  | none => simpa [connectE] using hg
  | some s =>
    cases tgt with
    | none => simpa [connectE] using hg
    | some t =>
      by_cases hst : s = t
      · simpa [connectE, hst] using hg
      · by_cases hp : hasPair s t E = true
        · simpa [connectE, hst, hp] using hg
        · have hpf : hasPair s t E = false := Bool.eq_false_iff.mpr hp
          have hE : connectE (some s) (some t) E = E ++ [(s, t)] := by
            simp [connectE, hst, hpf]
          rw [hE]
          obtain ⟨hloop, hpw⟩ := hg
          have hnodup : ∀ e ∈ E, ¬ samePair e (s, t) := by
            intro e he hsp
            have : hasPair s t E = true := by
              simp only [hasPair, List.any_eq_true]
              refine ⟨e, he, ?_⟩
              rcases hsp with ⟨h1, h2⟩ | ⟨h1, h2⟩ <;> simp [h1, h2]
            rw [hpf] at this
            exact Bool.false_ne_true this
          constructor
          · intro e he
            rcases List.mem_append.mp he with hmem | hmem
            · exact hloop e hmem
            · have : e = (s, t) := by simpa using hmem
              subst this
              exact hst
          · rw [List.pairwise_append]
            refine ⟨hpw, by simp, ?_⟩
            intro e he f hf
            have : f = (s, t) := by simpa using hf
            subst this
            exact hnodup e he

/-- Helper: any sequence of connect calls preserves edge-list
well-formedness. -/
lemma connectSeq_preserves_good (calls : List (Option Nat × Option Nat)) :
    ∀ E, goodEdges E → goodEdges (connectSeq calls E) := by
  induction calls with
  | nil => intro E h; exact h
  | cons c cs ih =>
    intro E h
    exact ih _ (connectE_preserves_good c.1 c.2 E h)

/-- Helper: the edge list produced by `attemptConnection` is exactly
`connectE` applied to the selection, the target and the old edge list. -/
lemma attemptConnection_edges (target : Option Nat) (st : AppState) :
    (attemptConnection target st).edges = connectE st.selectedNode target st.edges := by
  cases hs : st.selectedNode with
  | none => simp [attemptConnection, connectE, hs]
  | some s =>
    cases target with
    | none => simp [attemptConnection, connectE, hs]
    | some t =>
      by_cases hst : s = t
      · simp [attemptConnection, connectE, hs, hst]
      · by_cases hp : hasPair s t st.edges = true
        · simp [attemptConnection, connectE, hs, hst, hp]
        · have hpf : hasPair s t st.edges = false := Bool.eq_false_iff.mpr hp
          simp [attemptConnection, connectE, hs, hst, hpf, saveState]

/-- Claim C4: a connect attempt with `a = b` creates no edge; an attempt on a
pair already connected in either orientation appends nothing; across any
sequence of connect calls on the same unordered pair the edge list grows by
at most one; any sequence of connect calls preserves the invariant that the
edge collection holds no self-loop and no duplicate unordered pair; and the
edge list of the full `attemptConnection` is exactly this connect kernel. -/
theorem connect_dedup_invariants :
    (∀ s : Nat, ∀ E : List (Nat × Nat), connectE (some s) (some s) E = E) ∧
    (∀ s t : Nat, ∀ E : List (Nat × Nat), hasPair s t E = true →
      connectE (some s) (some t) E = E) ∧
    (∀ a b : Nat, ∀ E : List (Nat × Nat), ∀ calls : List (Option Nat × Option Nat),
      (∀ c ∈ calls, c = (some a, some b) ∨ c = (some b, some a)) →
      (connectSeq calls E).length ≤ E.length + 1) ∧
    (∀ E : List (Nat × Nat), ∀ calls : List (Option Nat × Option Nat),
      goodEdges E → goodEdges (connectSeq calls E)) ∧
    (∀ target : Option Nat, ∀ st : AppState,
      (attemptConnection target st).edges = connectE st.selectedNode target st.edges) := by
  refine ⟨?_, ?_, ?_, ?_, ?_⟩
  · intro s E
    simp [connectE]
  · intro s t E hp
    exact (connectE_pair_noop s t E hp).1
  · intro a b E calls hc
    exact connectSeq_pair_growth a b calls E hc
  · intro E calls hg
    exact connectSeq_preserves_good calls E hg
  · intro target st
    exact attemptConnection_edges target st

/-- Witness for C4: a connect, its reversed retry and a self-loop attempt on a
concrete edge list grow it by exactly one and keep it well-formed. -/
theorem connect_dedup_invariants_witness :
    (connectSeq [(some 1, some 2), (some 2, some 1)] ([] : List (Nat × Nat))).length ≤
      ([] : List (Nat × Nat)).length + 1 ∧
    goodEdges (connectSeq [(some 1, some 2), (some 2, some 1), (some 1, some 1)] [(3, 4)]) :=
  ⟨connect_dedup_invariants.2.2.1 1 2 [] [(some 1, some 2), (some 2, some 1)] (by decide),
   connect_dedup_invariants.2.2.2.1 [(3, 4)]
     [(some 1, some 2), (some 2, some 1), (some 1, some 1)] (by decide)⟩

/-- Claim C9: a connect attempt on two distinct non-null nodes exits connect
mode and clears the selection, on success and duplicate rejection alike; a
self-loop-rejected attempt (target is the selected node) or an attempt with no
target returns the state unchanged, leaving connect mode and the selection as
they were. -/
theorem attemptConnection_exit_or_preserve (st : AppState) (s : Nat)
    (hsel : st.selectedNode = some s) :
    (∀ t : Nat, s ≠ t →
      (attemptConnection (some t) st).isConnectingNode = false ∧
      (attemptConnection (some t) st).selectedNode = none) ∧
    attemptConnection (some s) st = st ∧
    attemptConnection none st = st := by
  refine ⟨fun t hst => ?_, ?_, ?_⟩
  · by_cases hp : hasPair s t st.edges = true <;>
      simp [attemptConnection, hsel, hst, hp, saveState]
  · simp [attemptConnection, hsel]
  · simp [attemptConnection, hsel]

/-- Witness for C9 at a concrete scene with node 0 selected and node 1 as
target. -/
theorem attemptConnection_exit_or_preserve_witness :
    (attemptConnection (some 1) sceneTwoNodes).isConnectingNode = false ∧
    (attemptConnection (some 1) sceneTwoNodes).selectedNode = none :=
  (attemptConnection_exit_or_preserve sceneTwoNodes 0 rfl).1 1 (by decide)

/-- Claim C10: an empty-space primary click (no hover, pan modifier not held,
inside the canvas) creates a node and always clears the selection and exits
connect mode. -/
theorem create_clears_selection_and_mode (st : AppState) (button : MouseButton)
    (hb : button ≠ .right) (hh : st.hoveredNode = none) :
    (mousePressed button false true st).selectedNode = none ∧
    (mousePressed button false true st).isConnectingNode = false := by
  simp [mousePressed, hb, hh, dragCheck, saveState]

/-- Witness for C10 at a concrete hover-free state and a primary click. -/
theorem create_clears_selection_and_mode_witness :
    (mousePressed .left false true camState).selectedNode = none ∧
    (mousePressed .left false true camState).isConnectingNode = false :=
  create_clears_selection_and_mode camState .left (by decide) rfl

end TinyGraph
